import Mathlib

/-!
Shallow embedding of the vegeta Prometheus metrics observer (`lib/prom/prom.go`).

The observer keeps four instruments (a latency histogram and three counters),
each keyed by a three-string label tuple, registers them at construction time,
records result records through `Observe`, serves the registry state over HTTP,
and tears everything down in `Close`.

Modelling conventions:
* float64 values become `ℚ` (all deltas in scope are exact in both systems);
* `time.Duration` (int64 nanoseconds) becomes `ℤ`, `uint64`/`uint16` become `ℕ`;
* a `prometheus.Registry` is modelled by the list of collector names
  registered in it; the process-global default registry (used by `promauto`
  and by `prometheus.Unregister`) is threaded explicitly as `defaultReg`;
* the Go regexp `(.+):([0-9]+)` used to parse the bind URL is modelled by an
  executable leftmost-first greedy matcher specialised to that pattern;
* `ListenAndServe`, which the source runs in a goroutine and whose result it
  discards, is modelled by a function of the set of already-bound addresses
  whose result the constructor likewise discards.
-/

/-- A label tuple: the three label values identifying one time series
(`(method, url, status)` for the byte counters and the histogram,
`(method, url, message)` for the failure counter). -/
abbrev LabelTuple := String × String × String

/-- The fields of `vegeta.Result` read by `Observe`. -/
structure Result where
  Method : String
  URL : String
  Code : Nat
  Error : String
  Latency : Int
  BytesIn : Nat
  BytesOut : Nat
deriving DecidableEq

/-- Update-or-create on a label-keyed association list: apply `f` to the value
stored at `t`, inserting `f init` if `t` has no entry yet.  This is the shape
shared by `WithLabelValues` (child creation on first use) and `Add`/`Observe`
on the resulting child. -/
def upsert {α : Type} (t : LabelTuple) (f : α → α) (init : α) :
    List (LabelTuple × α) → List (LabelTuple × α)
  | [] => [(t, f init)]
  | (k, v) :: rest => if k = t then (k, f v) :: rest else (k, v) :: upsert t f init rest

/-- Lookup in a label-keyed association list. -/
def lookupTuple {α : Type} (t : LabelTuple) : List (LabelTuple × α) → Option α
  | [] => none
  | (k, v) :: rest => if k = t then some v else lookupTuple t rest

/-- A `prometheus.CounterVec`: one accumulated value per label tuple; a tuple
has an entry exactly when `WithLabelValues` has been called for it. -/
structure CounterVec where
  entries : List (LabelTuple × ℚ)
deriving DecidableEq

/-- `WithLabelValues(...)` alone: creates the tuple's child (value 0) on first
use and leaves an existing child unchanged. -/
def CounterVec.withLabelValues (c : CounterVec) (t : LabelTuple) : CounterVec :=
  ⟨upsert t id 0 c.entries⟩

/-- `WithLabelValues(...).Add(d)`: creates the child if needed and adds `d`. -/
def CounterVec.add (c : CounterVec) (t : LabelTuple) (d : ℚ) : CounterVec :=
  ⟨upsert t (fun v => v + d) 0 c.entries⟩

/-- The accumulated value of a tuple's series, `none` when the series does not
exist (has never been touched). -/
def CounterVec.value (c : CounterVec) (t : LabelTuple) : Option ℚ :=
  lookupTuple t c.entries

/-- The accumulated value of a tuple's series, defaulting to 0 for an absent
series (an absent series renders nothing, which a scraper reads as 0). -/
def CounterVec.valueD (c : CounterVec) (t : LabelTuple) : ℚ :=
  (c.value t).getD 0

/-- One histogram child (the per-tuple state): for each candidate bucket upper
bound the cumulative count of observations ≤ that bound, plus the running sum
and the total observation count. -/
structure HistSeries where
  cumCount : ℚ → ℕ
  sum : ℚ
  count : ℕ

/-- A fresh histogram child: all bucket counts, the sum and the count are 0. -/
def HistSeries.empty : HistSeries := ⟨fun _ => 0, 0, 0⟩

/-- `Observe(v)` on a histogram child: every bucket whose upper bound is ≥ `v`
gains one, the sum gains `v`, the total count gains one. -/
def HistSeries.observeVal (s : HistSeries) (v : ℚ) : HistSeries :=
  ⟨fun b => s.cumCount b + (if v ≤ b then 1 else 0), s.sum + v, s.count + 1⟩

/-- A `prometheus.HistogramVec`: the fixed ascending bucket bounds and one
child per label tuple. -/
structure HistogramVec where
  buckets : List ℚ
  entries : List (LabelTuple × HistSeries)

/-- `WithLabelValues(...).Observe(v)`: creates the tuple's child on first use
and records `v` into it. -/
def HistogramVec.observe (h : HistogramVec) (t : LabelTuple) (v : ℚ) : HistogramVec :=
  ⟨h.buckets, upsert t (fun s => s.observeVal v) HistSeries.empty h.entries⟩

/-- The child state of a tuple, an all-zero child when the tuple was never
observed. -/
def HistogramVec.seriesOf (h : HistogramVec) (t : LabelTuple) : HistSeries :=
  (lookupTuple t h.entries).getD HistSeries.empty

/-- Cumulative count of the bucket with upper bound `b` for tuple `t`. -/
def HistogramVec.cum (h : HistogramVec) (t : LabelTuple) (b : ℚ) : ℕ :=
  (h.seriesOf t).cumCount b

/-- Total observation count for tuple `t`. -/
def HistogramVec.countOf (h : HistogramVec) (t : LabelTuple) : ℕ :=
  (h.seriesOf t).count

/-- The bucket bounds of `request_seconds` as declared in the source:
`[]float64{0.1, 0.2, 0.5, 1.0, 2.0, 5.0, 10.0, 20, 50}`. -/
def promBuckets : List ℚ :=
  [1/10, 1/5, 1/2, 1, 2, 5, 10, 20, 50]

/-! ### The bind-URL parse: `regexp.MustCompile("(.+):([0-9]+)")`

Go's RE2 matching is leftmost-first with greedy quantifiers and `.` not
matching a newline.  For this pattern a match starting at a position takes the
rightmost colon that is reachable without crossing a newline and is followed
by a digit, with at least one character before it, and then the maximal digit
run after that colon. -/

/-- Whether the character list contains a `':'` immediately followed by a
decimal digit (the minimal shape the pattern `(.+):([0-9]+)` needs). -/
def hasColonDigit : List Char → Bool
  | c :: d :: rest => (decide (c = ':') && d.isDigit) || hasColonDigit (d :: rest)
  | _ => false

/-- Split `s` as `pre ++ ':' :: suf` where `pre` is newline-free and `suf`
starts with a digit, choosing the rightmost such colon (the greedy preference
of `(.+)`); `none` when no such split exists. -/
def lastColonSplit : List Char → Option (List Char × List Char)
  | [] => none
  | c :: rest =>
    if c = '\n' then none
    else
      match lastColonSplit rest with
      | some (p, s) => some (c :: p, s)
      | none =>
        if c = ':' then
          match rest with
          | d :: _ => if d.isDigit then some ([], rest) else none
          | [] => none
        else none

/-- Match of `(.+):([0-9]+)` anchored at the head of `s`: the rightmost usable
colon preceded by a nonempty newline-free prefix, then the maximal digit run.
Returns `(group1, group2, remainder after the match)`. -/
def matchAt (s : List Char) : Option (List Char × List Char × List Char) :=
  match lastColonSplit s with
  | none => none
  | some (pre, suf) =>
    if pre = [] then none
    else some (pre, suf.takeWhile Char.isDigit, suf.dropWhile Char.isDigit)

/-- Leftmost match of `(.+):([0-9]+)` in `s` (try each start position from the
left, preferring the greedy match at the earliest feasible start). -/
def findMatch : List Char → Option (List Char × List Char × List Char)
  | [] => none
  | c :: rest =>
    match matchAt (c :: rest) with
    | some m => some m
    | none => findMatch rest

/-- `re.FindAllStringSubmatch(bindURL, 3)` restricted to the two capture
groups: up to three non-overlapping leftmost matches. -/
def findAll3 (s : List Char) : List (List Char × List Char) :=
  match findMatch s with
  | none => []
  | some (h1, d1, r1) =>
    match findMatch r1 with
    | none => [(h1, d1)]
    | some (h2, d2, r2) =>
      match findMatch r2 with
      | none => [(h1, d1), (h2, d2)]
      | some (h3, d3, _) => [(h1, d1), (h2, d2), (h3, d3)]

/-- Decimal value of a digit string. -/
def digitsToNat (ds : List Char) : Nat :=
  ds.foldl (fun n c => n * 10 + (c.toNat - '0'.toNat)) 0

/-- `strconv.Atoi` on the digit-only capture group: on a 64-bit platform it
fails (value out of range) exactly when the value exceeds `2^63 - 1`. -/
def atoiDigits (ds : List Char) : Option Nat :=
  if digitsToNat ds ≤ 9223372036854775807 then some (digitsToNat ds) else none

/-- The bind-URL parsing block of `NewPrometheusMetricsWithParams`
(prom.go lines 44-61): run the regexp, require exactly one match, convert the
port with `Atoi`, and reject everything else with the `Invalid bindURL` error. -/
def parseBindURL (bindURL : String) : Except String (String × Nat) :=
  match findAll3 bindURL.data with
  | [(h, d)] =>
    match atoiDigits d with
    | some n => .ok (String.mk h, n)
    | none => .error ("strconv.Atoi: parsing " ++ String.mk d ++ ": value out of range")
  | _ => .error ("Invalid bindURL " ++ bindURL ++ ". Must be in format '0.0.0.0:8880'")

/-! ### Registries and construction -/

/-- `Registry.MustRegister` / `promauto` registration: panics (here: errors)
when a collector with the same name is already registered, otherwise appends
the collector. -/
def mustRegister (reg : List String) (name : String) : Except String (List String) :=
  if name ∈ reg then
    .error ("duplicate metrics collector registration attempted: " ++ name)
  else
    .ok (reg ++ [name])

/-- The instrument-creation block of the constructor (prom.go lines 67-106) in
source order: the histogram is a plain `prometheus.NewHistogramVec` registered
only on the instance registry, while the three counters are created with
`promauto.NewCounterVec` (which registers them on the process-global default
registry and panics on a duplicate) and then also registered on the instance
registry.  Returns `(instance registry, default registry)`. -/
def registerInstruments (defaultReg : List String) :
    Except String (List String × List String) := do
  let ownReg ← mustRegister [] "request_seconds"
  let defaultReg ← mustRegister defaultReg "request_bytes_in"
  let ownReg ← mustRegister ownReg "request_bytes_in"
  let defaultReg ← mustRegister defaultReg "request_bytes_out"
  let ownReg ← mustRegister ownReg "request_bytes_out"
  let defaultReg ← mustRegister defaultReg "request_fail_count"
  let ownReg ← mustRegister ownReg "request_fail_count"
  pure (ownReg, defaultReg)

/-- The observer state (`PrometheusMetrics`): the four instruments, the HTTP
server's bind address and shutdown flag, and the instance registry (as the
list of collector names registered on it). -/
structure PrometheusMetrics where
  requestSecondsHistogram : HistogramVec
  requestBytesInCounter : CounterVec
  requestBytesOutCounter : CounterVec
  requestFailCounter : CounterVec
  srvAddr : String
  srvClosed : Bool
  registry : List String

/-- Outcome of `NewPrometheusMetricsWithParams`: a constructed observer plus
the updated default registry, an error return, or a panic (from `promauto` /
`MustRegister` on a duplicate collector). -/
inductive ConstructResult where
  | ok (pm : PrometheusMetrics) (defaultReg : List String)
  | err (msg : String)
  | panic (msg : String)

/-- Whether construction returned an observer. -/
def ConstructResult.isOk : ConstructResult → Bool
  | .ok _ _ => true
  | _ => false

/-- Whether construction returned an error value (the non-panic failure path). -/
def ConstructResult.isErr : ConstructResult → Bool
  | .err _ => true
  | _ => false

/-- The constructed observer, for concrete evaluation of successful
constructions (arbitrary placeholder on the failure branches). -/
def thePM : ConstructResult → PrometheusMetrics
  | .ok pm _ => pm
  | _ => ⟨⟨promBuckets, []⟩, ⟨[]⟩, ⟨[]⟩, ⟨[]⟩, "", false, []⟩

/-- The default registry after construction, for concrete evaluation. -/
def theReg : ConstructResult → List String
  | .ok _ g => g
  | _ => []

/-- Outcome of `net/http.Server.ListenAndServe` on `addr` given the addresses
already bound by other listeners.  The source invokes this inside
`go func() { pm.srv.ListenAndServe() }()` and discards the result. -/
def listenAndServe (portsInUse : List String) (addr : String) : Option String :=
  if addr ∈ portsInUse then
    some ("listen tcp " ++ addr ++ ": bind: address already in use")
  else
    none

/-- `NewPrometheusMetricsWithParams` (prom.go lines 42-119): parse the bind
URL, create and register the four instruments, set up the HTTP server with the
registry renderer as its sole handler, launch `ListenAndServe` in a goroutine
whose result is discarded, and return the observer. -/
def NewPrometheusMetricsWithParams (defaultReg portsInUse : List String)
    (bindURL : String) : ConstructResult :=
  match parseBindURL bindURL with
  | .error msg => .err msg
  | .ok (bindHost, bindPort) =>
    match registerInstruments defaultReg with
    | .error msg => .panic msg
    | .ok (ownReg, defaultReg') =>
      let addr := bindHost ++ ":" ++ toString bindPort
      let _bindOutcome := listenAndServe portsInUse addr
      .ok
        { requestSecondsHistogram := ⟨promBuckets, []⟩
          requestBytesInCounter := ⟨[]⟩
          requestBytesOutCounter := ⟨[]⟩
          requestFailCounter := ⟨[]⟩
          srvAddr := addr
          srvClosed := false
          registry := ownReg }
        defaultReg'

/-- `NewPrometheusMetrics()`: the default-parameter constructor, bound to
`0.0.0.0:8880`. -/
def NewPrometheusMetrics (defaultReg portsInUse : List String) : ConstructResult :=
  NewPrometheusMetricsWithParams defaultReg portsInUse "0.0.0.0:8880"

/-- `prometheus.Unregister(c)` on the process-global default registry: removes
the collector (identified here by its name) when present, a no-op otherwise. -/
def Unregister (reg : List String) (name : String) : List String :=
  reg.filter (fun n => n ≠ name)

/-- `Close` (prom.go lines 123-129): unregister the four collectors from the
process-global default registry (note: not from `pm.registry`), then shut the
HTTP server down and return the shutdown result.  `lnErr` is the error the
listener teardown would report; a second shutdown of the same server reports
nothing. -/
def PrometheusMetrics.Close (pm : PrometheusMetrics) (defaultReg : List String)
    (lnErr : Option String) : PrometheusMetrics × List String × Option String :=
  let r1 := Unregister defaultReg "request_seconds"
  let r2 := Unregister r1 "request_bytes_in"
  let r3 := Unregister r2 "request_bytes_out"
  let r4 := Unregister r3 "request_fail_count"
  let shutdownRes := if pm.srvClosed then none else lnErr
  ({ pm with srvClosed := true }, r4, shutdownRes)

/-- The status label: `strconv.FormatUint(uint64(res.Code), 10)`. -/
def formatCode (n : Nat) : String := toString n

/-- The label tuple `Observe` derives from a record for the byte counters and
the histogram. -/
def labelsOf (res : Result) : LabelTuple :=
  (res.Method, res.URL, formatCode res.Code)

/-- The latency in fractional seconds:
`float64(res.Latency) / float64(time.Second)`. -/
def latencySecs (res : Result) : ℚ :=
  (res.Latency : ℚ) / 1000000000

/-- `Observe` (prom.go lines 132-140): add the byte deltas to the two byte
counters, record the latency in seconds into the histogram, and — only when
the record's error message is non-empty — call `WithLabelValues` on the
failure counter (the source calls it without `.Inc()`, so the series is
created but not incremented). -/
def PrometheusMetrics.Observe (pm : PrometheusMetrics) (res : Result) : PrometheusMetrics :=
  let code := formatCode res.Code
  let pm1 := { pm with requestBytesInCounter :=
    pm.requestBytesInCounter.add (res.Method, res.URL, code) (res.BytesIn : ℚ) }
  let pm2 := { pm1 with requestBytesOutCounter :=
    pm1.requestBytesOutCounter.add (res.Method, res.URL, code) (res.BytesOut : ℚ) }
  let pm3 := { pm2 with requestSecondsHistogram :=
    pm2.requestSecondsHistogram.observe (res.Method, res.URL, code) (latencySecs res) }
  if res.Error ≠ "" then
    { pm3 with requestFailCounter :=
      pm3.requestFailCounter.withLabelValues (res.Method, res.URL, res.Error) }
  else
    pm3

/-- A sequence of `Observe` calls. -/
def observeAll (pm : PrometheusMetrics) (rs : List Result) : PrometheusMetrics :=
  rs.foldl PrometheusMetrics.Observe pm

/-- The body served for one scrape: the server is built with
`Handler: promhttp.HandlerFor(pm.registry, ...)` and no route multiplexer, so
every request path is answered by the same handler, which renders the current
state of the instance registry's collectors. -/
structure ScrapeBody where
  collectors : List String
  histogram : HistogramVec
  bytesIn : CounterVec
  bytesOut : CounterVec
  failCount : CounterVec

/-- Serving one HTTP request against the observer: the sole handler ignores
the request path and renders the registry snapshot. -/
def handleScrape (pm : PrometheusMetrics) (_path : String) : ScrapeBody :=
  { collectors := pm.registry
    histogram := pm.requestSecondsHistogram
    bytesIn := pm.requestBytesInCounter
    bytesOut := pm.requestBytesOutCounter
    failCount := pm.requestFailCounter }

/-! ### Association-list lemmas -/

theorem lookupTuple_upsert_self {α : Type} (t : LabelTuple) (f : α → α) (init : α)
    (l : List (LabelTuple × α)) :
    lookupTuple t (upsert t f init l) = some (f ((lookupTuple t l).getD init)) := by
  induction l with
  | nil => simp [upsert, lookupTuple]
  | cons p rest ih =>
    obtain ⟨k, v⟩ := p
    by_cases h : k = t <;> simp [upsert, lookupTuple, h, ih]

theorem lookupTuple_upsert_ne {α : Type} {t t' : LabelTuple} (hne : t' ≠ t)
    (f : α → α) (init : α) (l : List (LabelTuple × α)) :
    lookupTuple t' (upsert t f init l) = lookupTuple t' l := by
  have hne' : t ≠ t' := Ne.symm hne
  induction l with
  | nil => simp [upsert, lookupTuple, hne']
  | cons p rest ih =>
    obtain ⟨k, v⟩ := p
    by_cases h : k = t
    · subst h
      simp [upsert, lookupTuple, hne']
    · simp [upsert, lookupTuple, h, ih]

/-! ### Counter-level lemmas -/

theorem CounterVec.valueD_add_self (c : CounterVec) (t : LabelTuple) (d : ℚ) :
    (c.add t d).valueD t = c.valueD t + d := by
  simp [CounterVec.add, CounterVec.valueD, CounterVec.value, lookupTuple_upsert_self]

theorem CounterVec.valueD_add_ne (c : CounterVec) {t t' : LabelTuple} (hne : t' ≠ t) (d : ℚ) :
    (c.add t d).valueD t' = c.valueD t' := by
  simp [CounterVec.add, CounterVec.valueD, CounterVec.value, lookupTuple_upsert_ne hne]

/-! ### Effect of one Observe call on each instrument -/

theorem Observe_bytesIn (pm : PrometheusMetrics) (res : Result) :
    (pm.Observe res).requestBytesInCounter =
      pm.requestBytesInCounter.add (labelsOf res) (res.BytesIn : ℚ) := by
  simp only [PrometheusMetrics.Observe, labelsOf]
  split <;> rfl

theorem Observe_bytesOut (pm : PrometheusMetrics) (res : Result) :
    (pm.Observe res).requestBytesOutCounter =
      pm.requestBytesOutCounter.add (labelsOf res) (res.BytesOut : ℚ) := by
  simp only [PrometheusMetrics.Observe, labelsOf]
  split <;> rfl

theorem Observe_hist (pm : PrometheusMetrics) (res : Result) :
    (pm.Observe res).requestSecondsHistogram =
      pm.requestSecondsHistogram.observe (labelsOf res) (latencySecs res) := by
  simp only [PrometheusMetrics.Observe, labelsOf]
  split <;> rfl

theorem Observe_fail (pm : PrometheusMetrics) (res : Result) :
    (pm.Observe res).requestFailCounter =
      if res.Error ≠ "" then
        pm.requestFailCounter.withLabelValues (res.Method, res.URL, res.Error)
      else
        pm.requestFailCounter := by
  simp only [PrometheusMetrics.Observe]
  split <;> simp_all

/-! ### C4: counters accumulate exact sums of deltas -/

/-- The sum of `f` over the records of `rs` whose derived label tuple is `t`. -/
def sumTupleQ (f : Result → ℚ) (rs : List Result) (t : LabelTuple) : ℚ :=
  ((rs.filter (fun r => decide (labelsOf r = t))).map f).sum

theorem observe_step_bytesIn (pm : PrometheusMetrics) (r : Result) (t : LabelTuple) :
    (pm.Observe r).requestBytesInCounter.valueD t =
      pm.requestBytesInCounter.valueD t +
        (if labelsOf r = t then (r.BytesIn : ℚ) else 0) := by
  rw [Observe_bytesIn]
  by_cases h : labelsOf r = t
  · rw [h, CounterVec.valueD_add_self, if_pos rfl]
  · rw [CounterVec.valueD_add_ne _ (fun he => h he.symm), if_neg h, add_zero]

theorem observe_step_bytesOut (pm : PrometheusMetrics) (r : Result) (t : LabelTuple) :
    (pm.Observe r).requestBytesOutCounter.valueD t =
      pm.requestBytesOutCounter.valueD t +
        (if labelsOf r = t then (r.BytesOut : ℚ) else 0) := by
  rw [Observe_bytesOut]
  by_cases h : labelsOf r = t
  · rw [h, CounterVec.valueD_add_self, if_pos rfl]
  · rw [CounterVec.valueD_add_ne _ (fun he => h he.symm), if_neg h, add_zero]

theorem observeAll_bytesIn (rs : List Result) (pm : PrometheusMetrics) (t : LabelTuple) :
    (observeAll pm rs).requestBytesInCounter.valueD t =
      pm.requestBytesInCounter.valueD t + sumTupleQ (fun r => (r.BytesIn : ℚ)) rs t := by
  induction rs generalizing pm with
  | nil => simp [observeAll, sumTupleQ]
  | cons r rs ih =>
    show (observeAll (pm.Observe r) rs).requestBytesInCounter.valueD t = _
    rw [ih, observe_step_bytesIn]
    by_cases h : labelsOf r = t
    · simp [sumTupleQ, List.filter_cons, h]
      ring
    · simp [sumTupleQ, List.filter_cons, h]

theorem observeAll_bytesOut (rs : List Result) (pm : PrometheusMetrics) (t : LabelTuple) :
    (observeAll pm rs).requestBytesOutCounter.valueD t =
      pm.requestBytesOutCounter.valueD t + sumTupleQ (fun r => (r.BytesOut : ℚ)) rs t := by
  induction rs generalizing pm with
  | nil => simp [observeAll, sumTupleQ]
  | cons r rs ih =>
    show (observeAll (pm.Observe r) rs).requestBytesOutCounter.valueD t = _
    rw [ih, observe_step_bytesOut]
    by_cases h : labelsOf r = t
    · simp [sumTupleQ, List.filter_cons, h]
      ring
    · simp [sumTupleQ, List.filter_cons, h]

/-- The success record of the spec's scenario: method=GET, url=/x, status=200,
latency=100ms, bytesIn=1000, bytesOut=50. -/
def specRecord : Result :=
  { Method := "GET", URL := "/x", Code := 200, Error := ""
    Latency := 100000000, BytesIn := 1000, BytesOut := 50 }

/-- C4: for every finite sequence of observe calls, the bytes-in and
bytes-out counters' accumulated value for each label tuple
(method, url, decimal status string) equals the exact sum of the `bytesIn`
respectively `bytesOut` deltas applied to that tuple; in particular observing
a record with bytesIn=1000 four times yields a `request_bytes_in` series with
value 4000 for that tuple. -/
theorem counters_accumulate_exact_sums :
    (∀ (pm : PrometheusMetrics) (rs : List Result) (t : LabelTuple),
      (observeAll pm rs).requestBytesInCounter.valueD t =
        pm.requestBytesInCounter.valueD t + sumTupleQ (fun r => (r.BytesIn : ℚ)) rs t ∧
      (observeAll pm rs).requestBytesOutCounter.valueD t =
        pm.requestBytesOutCounter.valueD t + sumTupleQ (fun r => (r.BytesOut : ℚ)) rs t) ∧
    (observeAll (thePM (NewPrometheusMetricsWithParams [] [] "0.0.0.0:8880"))
        (List.replicate 4 specRecord)).requestBytesInCounter.value ("GET", "/x", "200") =
      some 4000 := by
  refine ⟨fun pm rs t => ⟨observeAll_bytesIn rs pm t, observeAll_bytesOut rs pm t⟩, ?_⟩
  have hpm : thePM (NewPrometheusMetricsWithParams [] [] "0.0.0.0:8880") =
      ⟨⟨promBuckets, []⟩, ⟨[]⟩, ⟨[]⟩, ⟨[]⟩, "0.0.0.0:8880", false,
        ["request_seconds", "request_bytes_in", "request_bytes_out",
          "request_fail_count"]⟩ := by rfl
  rw [hpm]
  norm_num [observeAll, List.replicate, PrometheusMetrics.Observe, specRecord, formatCode,
    CounterVec.add, CounterVec.withLabelValues, upsert, CounterVec.value, lookupTuple,
    List.foldl]
  intro hc
  exact absurd (by decide) hc

/-! ### Characterizing successful construction -/

theorem registerInstruments_eq (dreg : List String) :
    registerInstruments dreg =
      if "request_bytes_in" ∈ dreg then
        .error "duplicate metrics collector registration attempted: request_bytes_in"
      else if "request_bytes_out" ∈ dreg then
        .error "duplicate metrics collector registration attempted: request_bytes_out"
      else if "request_fail_count" ∈ dreg then
        .error "duplicate metrics collector registration attempted: request_fail_count"
      else
        .ok (["request_seconds", "request_bytes_in", "request_bytes_out",
              "request_fail_count"],
             dreg ++ ["request_bytes_in", "request_bytes_out", "request_fail_count"]) := by
  unfold registerInstruments mustRegister
  split_ifs with h1 h2 h3 <;>
    simp_all [bind, Except.bind, pure, Except.pure, List.mem_append]

theorem newPM_eq_of_parse_ok {url host : String} {port : Nat}
    (hp : parseBindURL url = .ok (host, port)) (dreg ports : List String) :
    NewPrometheusMetricsWithParams dreg ports url =
      if "request_bytes_in" ∈ dreg then
        .panic "duplicate metrics collector registration attempted: request_bytes_in"
      else if "request_bytes_out" ∈ dreg then
        .panic "duplicate metrics collector registration attempted: request_bytes_out"
      else if "request_fail_count" ∈ dreg then
        .panic "duplicate metrics collector registration attempted: request_fail_count"
      else
        .ok
          { requestSecondsHistogram := ⟨promBuckets, []⟩
            requestBytesInCounter := ⟨[]⟩
            requestBytesOutCounter := ⟨[]⟩
            requestFailCounter := ⟨[]⟩
            srvAddr := host ++ ":" ++ toString port
            srvClosed := false
            registry := ["request_seconds", "request_bytes_in", "request_bytes_out",
              "request_fail_count"] }
          (dreg ++ ["request_bytes_in", "request_bytes_out", "request_fail_count"]) := by
  unfold NewPrometheusMetricsWithParams
  rw [hp, registerInstruments_eq]
  split_ifs <;> rfl

theorem newPM_ok_spec {dreg ports : List String} {url : String}
    {pm : PrometheusMetrics} {dreg' : List String}
    (h : NewPrometheusMetricsWithParams dreg ports url = .ok pm dreg') :
    pm.requestSecondsHistogram = ⟨promBuckets, []⟩ ∧
    pm.requestBytesInCounter = ⟨[]⟩ ∧
    pm.requestBytesOutCounter = ⟨[]⟩ ∧
    pm.requestFailCounter = ⟨[]⟩ ∧
    pm.srvClosed = false ∧
    pm.registry = ["request_seconds", "request_bytes_in", "request_bytes_out",
      "request_fail_count"] ∧
    dreg' = dreg ++ ["request_bytes_in", "request_bytes_out", "request_fail_count"] := by
  cases hp : parseBindURL url with
  | error m =>
    unfold NewPrometheusMetricsWithParams at h
    rw [hp] at h
    exact ConstructResult.noConfusion h
  | ok p =>
    obtain ⟨host, port⟩ := p
    rw [newPM_eq_of_parse_ok hp] at h
    split_ifs at h with h1 h2 h3
    injection h with hpm hdreg
    refine ⟨?_, ?_, ?_, ?_, ?_, ?_, hdreg.symm⟩ <;> rw [← hpm]

/-! ### Histogram lemmas: cumulative buckets and counts -/

theorem seriesOf_observe_self (h : HistogramVec) (t : LabelTuple) (v : ℚ) :
    (h.observe t v).seriesOf t = (h.seriesOf t).observeVal v := by
  simp [HistogramVec.observe, HistogramVec.seriesOf, lookupTuple_upsert_self]

theorem seriesOf_observe_ne (h : HistogramVec) {t t' : LabelTuple} (hne : t' ≠ t) (v : ℚ) :
    (h.observe t v).seriesOf t' = h.seriesOf t' := by
  simp [HistogramVec.observe, HistogramVec.seriesOf, lookupTuple_upsert_ne hne]

theorem observe_step_histCount (pm : PrometheusMetrics) (r : Result) (t : LabelTuple) :
    (pm.Observe r).requestSecondsHistogram.countOf t =
      pm.requestSecondsHistogram.countOf t + (if labelsOf r = t then 1 else 0) := by
  by_cases h : labelsOf r = t
  · simp [HistogramVec.countOf, Observe_hist, h, seriesOf_observe_self, HistSeries.observeVal]
  · simp [HistogramVec.countOf, Observe_hist, h,
      seriesOf_observe_ne _ (fun he => h he.symm)]

theorem observeAll_histCount (rs : List Result) (pm : PrometheusMetrics) (t : LabelTuple) :
    (observeAll pm rs).requestSecondsHistogram.countOf t =
      pm.requestSecondsHistogram.countOf t +
        (rs.filter (fun r => decide (labelsOf r = t))).length := by
  induction rs generalizing pm with
  | nil => simp [observeAll]
  | cons r rs ih =>
    show (observeAll (pm.Observe r) rs).requestSecondsHistogram.countOf t = _
    rw [ih, observe_step_histCount]
    by_cases h : labelsOf r = t
    · simp [List.filter_cons, h]
      omega
    · simp [List.filter_cons, h]

/-- Cumulativity of one histogram child: a larger candidate bucket bound never
has a smaller count. -/
def SeriesMono (s : HistSeries) : Prop :=
  ∀ b b' : ℚ, b ≤ b' → s.cumCount b ≤ s.cumCount b'

theorem seriesMono_empty : SeriesMono HistSeries.empty :=
  fun _ _ _ => le_rfl

theorem seriesMono_observeVal {s : HistSeries} (hs : SeriesMono s) (v : ℚ) :
    SeriesMono (s.observeVal v) := by
  intro b b' hbb
  have h1 := hs b b' hbb
  simp only [HistSeries.observeVal]
  by_cases hv : v ≤ b
  · rw [if_pos hv, if_pos (le_trans hv hbb)]
    omega
  · rw [if_neg hv]
    split_ifs <;> omega

/-- Cumulativity of every child of a histogram. -/
def HistMono (h : HistogramVec) : Prop :=
  ∀ t, SeriesMono (h.seriesOf t)

theorem histMono_empty (bs : List ℚ) : HistMono ⟨bs, []⟩ := by
  intro t
  simp only [HistogramVec.seriesOf, lookupTuple, Option.getD_none]
  exact seriesMono_empty

theorem histMono_observe {h : HistogramVec} (hm : HistMono h) (t : LabelTuple) (v : ℚ) :
    HistMono (h.observe t v) := by
  intro t'
  by_cases he : t' = t
  · subst he
    rw [seriesOf_observe_self]
    exact seriesMono_observeVal (hm t') v
  · rw [seriesOf_observe_ne h he]
    exact hm t'

theorem histMono_observeAll {pm : PrometheusMetrics}
    (hm : HistMono pm.requestSecondsHistogram) (rs : List Result) :
    HistMono (observeAll pm rs).requestSecondsHistogram := by
  induction rs generalizing pm with
  | nil => exact hm
  | cons r rs ih =>
    show HistMono (observeAll (pm.Observe r) rs).requestSecondsHistogram
    apply ih
    rw [Observe_hist]
    exact histMono_observe hm _ _

/-- C5: every observe call records the record's latency converted to
fractional seconds into the latency histogram for the tuple
(method, url, decimal status string); in every histogram state reachable from
a freshly constructed observer the cumulative count of a bucket with a given
upper bound is ≥ the cumulative count of any bucket with a smaller bound, and
the total observation count for a tuple equals the number of observations
applied to it. -/
theorem histogram_latency_seconds_and_cumulative_buckets
    (dreg ports : List String) (url : String) (pm : PrometheusMetrics)
    (dreg' : List String) (rs : List Result)
    (h : NewPrometheusMetricsWithParams dreg ports url = .ok pm dreg') :
    (∀ (q : PrometheusMetrics) (r : Result),
      (q.Observe r).requestSecondsHistogram =
        q.requestSecondsHistogram.observe (labelsOf r) (latencySecs r)) ∧
    (∀ (t : LabelTuple) (b b' : ℚ),
      b ∈ (observeAll pm rs).requestSecondsHistogram.buckets →
      b' ∈ (observeAll pm rs).requestSecondsHistogram.buckets →
      b ≤ b' →
      (observeAll pm rs).requestSecondsHistogram.cum t b ≤
        (observeAll pm rs).requestSecondsHistogram.cum t b') ∧
    (∀ t : LabelTuple,
      (observeAll pm rs).requestSecondsHistogram.countOf t =
        (rs.filter (fun r => decide (labelsOf r = t))).length) := by
  obtain ⟨hh, -, -, -, -, -, -⟩ := newPM_ok_spec h
  refine ⟨fun q r => Observe_hist q r, ?_, ?_⟩
  · intro t b b' _ _ hbb
    have hm : HistMono pm.requestSecondsHistogram := by
      rw [hh]
      exact histMono_empty _
    exact histMono_observeAll hm rs t b b' hbb
  · intro t
    rw [observeAll_histCount, hh]
    simp [HistogramVec.countOf, HistogramVec.seriesOf, lookupTuple, HistSeries.empty]

theorem histogram_latency_seconds_and_cumulative_buckets_witness :
    (NewPrometheusMetricsWithParams [] [] "0.0.0.0:8880" =
      .ok (thePM (NewPrometheusMetricsWithParams [] [] "0.0.0.0:8880"))
        (theReg (NewPrometheusMetricsWithParams [] [] "0.0.0.0:8880"))) ∧
    ((∀ (q : PrometheusMetrics) (r : Result),
      (q.Observe r).requestSecondsHistogram =
        q.requestSecondsHistogram.observe (labelsOf r) (latencySecs r)) ∧
    (∀ (t : LabelTuple) (b b' : ℚ),
      b ∈ (observeAll (thePM (NewPrometheusMetricsWithParams [] [] "0.0.0.0:8880"))
        [specRecord]).requestSecondsHistogram.buckets →
      b' ∈ (observeAll (thePM (NewPrometheusMetricsWithParams [] [] "0.0.0.0:8880"))
        [specRecord]).requestSecondsHistogram.buckets →
      b ≤ b' →
      (observeAll (thePM (NewPrometheusMetricsWithParams [] [] "0.0.0.0:8880"))
        [specRecord]).requestSecondsHistogram.cum t b ≤
        (observeAll (thePM (NewPrometheusMetricsWithParams [] [] "0.0.0.0:8880"))
          [specRecord]).requestSecondsHistogram.cum t b') ∧
    (∀ t : LabelTuple,
      (observeAll (thePM (NewPrometheusMetricsWithParams [] [] "0.0.0.0:8880"))
        [specRecord]).requestSecondsHistogram.countOf t =
        ([specRecord].filter (fun r => decide (labelsOf r = t))).length)) :=
  ⟨by rfl,
   histogram_latency_seconds_and_cumulative_buckets [] [] "0.0.0.0:8880"
     (thePM (NewPrometheusMetricsWithParams [] [] "0.0.0.0:8880"))
     (theReg (NewPrometheusMetricsWithParams [] [] "0.0.0.0:8880"))
     [specRecord] (by rfl)⟩

/-- C9: for every result record whose error message is empty, observe leaves
the failure counter completely unchanged — no series (not even a zero-valued
entry) is created or modified — while the byte counters and the latency
histogram are still updated for the record's tuple. -/
theorem empty_error_leaves_fail_counter_untouched
    (pm : PrometheusMetrics) (res : Result) (h : res.Error = "") :
    (pm.Observe res).requestFailCounter = pm.requestFailCounter ∧
    (pm.Observe res).requestBytesInCounter.valueD (labelsOf res) =
      pm.requestBytesInCounter.valueD (labelsOf res) + (res.BytesIn : ℚ) ∧
    (pm.Observe res).requestBytesOutCounter.valueD (labelsOf res) =
      pm.requestBytesOutCounter.valueD (labelsOf res) + (res.BytesOut : ℚ) ∧
    (pm.Observe res).requestSecondsHistogram.countOf (labelsOf res) =
      pm.requestSecondsHistogram.countOf (labelsOf res) + 1 := by
  refine ⟨?_, ?_, ?_, ?_⟩
  · rw [Observe_fail]
    simp [h]
  · rw [observe_step_bytesIn, if_pos rfl]
  · rw [observe_step_bytesOut, if_pos rfl]
  · rw [observe_step_histCount, if_pos rfl]

theorem empty_error_leaves_fail_counter_untouched_witness :
    specRecord.Error = "" ∧
    (((thePM (NewPrometheusMetricsWithParams [] [] "0.0.0.0:8880")).Observe
        specRecord).requestFailCounter =
      (thePM (NewPrometheusMetricsWithParams [] [] "0.0.0.0:8880")).requestFailCounter ∧
    ((thePM (NewPrometheusMetricsWithParams [] [] "0.0.0.0:8880")).Observe
        specRecord).requestBytesInCounter.valueD (labelsOf specRecord) =
      (thePM (NewPrometheusMetricsWithParams [] []
        "0.0.0.0:8880")).requestBytesInCounter.valueD (labelsOf specRecord) +
        (specRecord.BytesIn : ℚ) ∧
    ((thePM (NewPrometheusMetricsWithParams [] [] "0.0.0.0:8880")).Observe
        specRecord).requestBytesOutCounter.valueD (labelsOf specRecord) =
      (thePM (NewPrometheusMetricsWithParams [] []
        "0.0.0.0:8880")).requestBytesOutCounter.valueD (labelsOf specRecord) +
        (specRecord.BytesOut : ℚ) ∧
    ((thePM (NewPrometheusMetricsWithParams [] [] "0.0.0.0:8880")).Observe
        specRecord).requestSecondsHistogram.countOf (labelsOf specRecord) =
      (thePM (NewPrometheusMetricsWithParams [] []
        "0.0.0.0:8880")).requestSecondsHistogram.countOf (labelsOf specRecord) + 1) :=
  ⟨rfl,
   empty_error_leaves_fail_counter_untouched
     (thePM (NewPrometheusMetricsWithParams [] [] "0.0.0.0:8880")) specRecord rfl⟩

/-! ### C1 and C2: the two code bugs -/

/-- The failure record of the spec's scenario: status=500,
error="REQUEST FAILED". -/
def failRecord : Result :=
  { Method := "GET", URL := "/x", Code := 500, Error := "REQUEST FAILED"
    Latency := 100000000, BytesIn := 0, BytesOut := 0 }

/-- C1 fails on the code: observing one record with a non-empty error message
creates the `request_fail_count` series for (method, url, message) but leaves
its value at 0 — the source calls `WithLabelValues` without `.Inc()` — so the
rendered state contains that series with value 0, not 1. -/
theorem observe_fail_counter_created_at_zero :
    ((thePM (NewPrometheusMetricsWithParams [] [] "0.0.0.0:8880")).Observe
        failRecord).requestFailCounter.value ("GET", "/x", "REQUEST FAILED") = some 0 ∧
    ((thePM (NewPrometheusMetricsWithParams [] [] "0.0.0.0:8880")).Observe
        failRecord).requestFailCounter.value ("GET", "/x", "REQUEST FAILED") ≠ some 1 := by
  have h0 : ((thePM (NewPrometheusMetricsWithParams [] [] "0.0.0.0:8880")).Observe
      failRecord).requestFailCounter.value ("GET", "/x", "REQUEST FAILED") = some 0 := by
    rfl
  refine ⟨h0, ?_⟩
  rw [h0]
  simp

/-- C2 fails on the code: with the bind address already in use, construction
still returns success — `ListenAndServe` runs in a goroutine whose error is
discarded — the four instruments remain registered on the instance registry,
and the construction result does not depend on the bind outcome at all. -/
theorem bind_error_swallowed_at_construction :
    (NewPrometheusMetricsWithParams [] ["0.0.0.0:8880"] "0.0.0.0:8880").isOk = true ∧
    (thePM (NewPrometheusMetricsWithParams [] ["0.0.0.0:8880"] "0.0.0.0:8880")).registry =
      ["request_seconds", "request_bytes_in", "request_bytes_out", "request_fail_count"] ∧
    listenAndServe ["0.0.0.0:8880"]
        (thePM (NewPrometheusMetricsWithParams [] ["0.0.0.0:8880"]
          "0.0.0.0:8880")).srvAddr ≠ none ∧
    (∀ ports : List String,
      NewPrometheusMetricsWithParams [] ports "0.0.0.0:8880" =
        NewPrometheusMetricsWithParams [] [] "0.0.0.0:8880") :=
  ⟨by rfl, by rfl, by decide, fun _ => rfl⟩

/-! ### C3 and C8: Close -/

theorem not_mem_unregister_self (l : List String) (n : String) : n ∉ Unregister l n := by
  intro hc
  rcases List.mem_filter.mp hc with ⟨-, hd⟩
  simp at hd

theorem not_mem_unregister_mono {l : List String} {n : String} (m : String) (h : n ∉ l) :
    n ∉ Unregister l m :=
  fun hc => h (List.mem_of_mem_filter hc)

theorem unregister_of_not_mem {l : List String} {n : String} (h : n ∉ l) :
    Unregister l n = l := by
  unfold Unregister
  rw [List.filter_eq_self]
  intro a ha
  simp only [decide_eq_true_eq]
  exact fun he => h (he ▸ ha)

/-- C3 fails on the code as stated: `Close` unregisters from the
process-global default registry, not from the observer's own registry — after
`Close` the observer's registry still holds all four instruments, so a render
of that registry still shows them. -/
theorem close_leaves_instance_registry_populated :
    ((thePM (NewPrometheusMetrics [] [])).Close (theReg (NewPrometheusMetrics [] []))
        none).1.registry =
      ["request_seconds", "request_bytes_in", "request_bytes_out",
        "request_fail_count"] ∧
    ((thePM (NewPrometheusMetrics [] [])).Close (theReg (NewPrometheusMetrics [] []))
        none).1.registry ≠ [] :=
  ⟨by rfl, by decide⟩

/-- C3 (amended): `Close` removes the four instruments from the process-global
default registry (where the `promauto` counters were registered), leaves the
observer's own registry unchanged, and always attempts the listener shutdown,
propagating its error, if any, to the caller. -/
theorem close_unregisters_default_registry_and_propagates_shutdown
    (pm : PrometheusMetrics) (dreg : List String) (e : Option String) :
    (pm.Close dreg e).1.registry = pm.registry ∧
    (∀ n : String,
      n ∈ (pm.Close dreg e).2.1 ↔
        n ∈ dreg ∧ n ∉ ["request_seconds", "request_bytes_in", "request_bytes_out",
          "request_fail_count"]) ∧
    (pm.Close dreg e).2.2 = (if pm.srvClosed then none else e) := by
  refine ⟨rfl, ?_, rfl⟩
  intro n
  simp only [PrometheusMetrics.Close, Unregister, List.mem_filter, decide_eq_true_eq,
    List.mem_cons, List.not_mem_nil, or_false, not_or]
  tauto

/-- C8: a second `Close` on the same observer is a benign no-op: it leaves the
observer state and the default registry exactly as after the first `Close` and
reports no error (the repeated listener shutdown reports nothing, and the
repeated unregistrations find nothing to remove). -/
theorem close_twice_is_benign_noop
    (pm : PrometheusMetrics) (dreg : List String) (e1 e2 : Option String) :
    ((pm.Close dreg e1).1.Close (pm.Close dreg e1).2.1 e2).1 = (pm.Close dreg e1).1 ∧
    ((pm.Close dreg e1).1.Close (pm.Close dreg e1).2.1 e2).2.1 =
      (pm.Close dreg e1).2.1 ∧
    ((pm.Close dreg e1).1.Close (pm.Close dreg e1).2.1 e2).2.2 = none := by
  refine ⟨rfl, ?_, rfl⟩
  show Unregister (Unregister (Unregister (Unregister ((pm.Close dreg e1).2.1)
      "request_seconds") "request_bytes_in") "request_bytes_out") "request_fail_count" =
    (pm.Close dreg e1).2.1
  have h4 : (pm.Close dreg e1).2.1 =
      Unregister (Unregister (Unregister (Unregister dreg "request_seconds")
        "request_bytes_in") "request_bytes_out") "request_fail_count" := rfl
  rw [h4]
  have hrs : "request_seconds" ∉ Unregister (Unregister (Unregister (Unregister dreg
      "request_seconds") "request_bytes_in") "request_bytes_out") "request_fail_count" :=
    not_mem_unregister_mono _ (not_mem_unregister_mono _ (not_mem_unregister_mono _
      (not_mem_unregister_self _ _)))
  have hbi : "request_bytes_in" ∉ Unregister (Unregister (Unregister (Unregister dreg
      "request_seconds") "request_bytes_in") "request_bytes_out") "request_fail_count" :=
    not_mem_unregister_mono _ (not_mem_unregister_mono _ (not_mem_unregister_self _ _))
  have hbo : "request_bytes_out" ∉ Unregister (Unregister (Unregister (Unregister dreg
      "request_seconds") "request_bytes_in") "request_bytes_out") "request_fail_count" :=
    not_mem_unregister_mono _ (not_mem_unregister_self _ _)
  have hfc : "request_fail_count" ∉ Unregister (Unregister (Unregister (Unregister dreg
      "request_seconds") "request_bytes_in") "request_bytes_out") "request_fail_count" :=
    not_mem_unregister_self _ _
  rw [unregister_of_not_mem hrs, unregister_of_not_mem hbi, unregister_of_not_mem hbo,
    unregister_of_not_mem hfc]

/-! ### C7: no second live instance -/

theorem new_not_ok_of_bytes_in_mem {dreg : List String}
    (hmem : "request_bytes_in" ∈ dreg) (ports : List String) (url : String) :
    (NewPrometheusMetricsWithParams dreg ports url).isOk = false := by
  unfold NewPrometheusMetricsWithParams
  cases hp : parseBindURL url with
  | error m => rfl
  | ok p =>
    obtain ⟨host, port⟩ := p
    rw [registerInstruments_eq, if_pos hmem]
    rfl

/-- C7: at most one observer instance is active at a time: after a successful
construction (whose `promauto` counters sit in the process-global default
registry until `Close`), any second construction fails or panics — it never
yields a second working instance, because registering a duplicate instrument
name against the default registry is an error. -/
theorem second_construction_while_live_conflicts
    (dreg ports : List String) (url : String) (pm : PrometheusMetrics)
    (dreg' : List String)
    (h : NewPrometheusMetricsWithParams dreg ports url = .ok pm dreg')
    (ports2 : List String) (url2 : String) :
    (NewPrometheusMetricsWithParams dreg' ports2 url2).isOk = false := by
  obtain ⟨-, -, -, -, -, -, hdreg⟩ := newPM_ok_spec h
  apply new_not_ok_of_bytes_in_mem _ ports2 url2
  rw [hdreg]
  simp

theorem second_construction_while_live_conflicts_witness :
    (NewPrometheusMetricsWithParams [] [] "0.0.0.0:8880" =
      .ok (thePM (NewPrometheusMetricsWithParams [] [] "0.0.0.0:8880"))
        (theReg (NewPrometheusMetricsWithParams [] [] "0.0.0.0:8880"))) ∧
    (NewPrometheusMetricsWithParams
        (theReg (NewPrometheusMetricsWithParams [] [] "0.0.0.0:8880")) []
        "0.0.0.0:8880").isOk = false :=
  ⟨by rfl,
   second_construction_while_live_conflicts [] [] "0.0.0.0:8880"
     (thePM (NewPrometheusMetricsWithParams [] [] "0.0.0.0:8880"))
     (theReg (NewPrometheusMetricsWithParams [] [] "0.0.0.0:8880"))
     (by rfl) [] "0.0.0.0:8880"⟩

/-! ### C6: unparseable bind URLs are rejected -/

theorem hasColonDigit_tail {c : Char} {rest : List Char}
    (h : hasColonDigit (c :: rest) = false) : hasColonDigit rest = false := by
  cases rest with
  | nil => rfl
  | cons d r' =>
    simp only [hasColonDigit, Bool.or_eq_false_iff] at h
    exact h.2

theorem lastColonSplit_cons (c : Char) (rest : List Char) :
    lastColonSplit (c :: rest) =
      if c = '\n' then none
      else
        match lastColonSplit rest with
        | some (p, s) => some (c :: p, s)
        | none =>
          if c = ':' then
            match rest with
            | d :: _ => if d.isDigit then some ([], rest) else none
            | [] => none
          else none := rfl

theorem lastColonSplit_eq_none {s : List Char} (h : hasColonDigit s = false) :
    lastColonSplit s = none := by
  induction s with
  | nil => rfl
  | cons c rest ih =>
    have ihr := ih (hasColonDigit_tail h)
    rw [lastColonSplit_cons]
    by_cases hc : c = '\n'
    · rw [if_pos hc]
    · rw [if_neg hc, ihr]
      cases rest with
      | nil => simp
      | cons d r' =>
        simp only [hasColonDigit, Bool.or_eq_false_iff] at h
        by_cases hcol : c = ':'
        · have hd : d.isDigit = false := by
            have h1 := h.1
            rw [hcol] at h1
            simpa using h1
          simp [hcol, hd]
        · simp [hcol]

theorem findMatch_cons (c : Char) (rest : List Char) :
    findMatch (c :: rest) =
      match matchAt (c :: rest) with
      | some m => some m
      | none => findMatch rest := rfl

theorem findMatch_eq_none {s : List Char} (h : hasColonDigit s = false) :
    findMatch s = none := by
  induction s with
  | nil => rfl
  | cons c rest ih =>
    have hm : matchAt (c :: rest) = none := by
      unfold matchAt
      rw [lastColonSplit_eq_none h]
    rw [findMatch_cons, hm]
    exact ih (hasColonDigit_tail h)

/-- C6: construction fails by returning an error (and no observer instance)
for every bindURL the bind-URL parse cannot turn into a host and a numeric
port; in particular for any string containing no
colon-immediately-followed-by-digit part. -/
theorem invalid_bind_url_fails_construction :
    (∀ (url msg : String) (dreg ports : List String),
      parseBindURL url = .error msg →
      NewPrometheusMetricsWithParams dreg ports url = .err msg) ∧
    (∀ (url : String) (dreg ports : List String),
      hasColonDigit url.data = false →
      (NewPrometheusMetricsWithParams dreg ports url).isErr = true) := by
  constructor
  · intro url msg dreg ports hp
    unfold NewPrometheusMetricsWithParams
    rw [hp]
  · intro url dreg ports h
    have hp : parseBindURL url = .error ("Invalid bindURL " ++ url ++
        ". Must be in format '0.0.0.0:8880'") := by
      unfold parseBindURL findAll3
      rw [findMatch_eq_none h]
    unfold NewPrometheusMetricsWithParams
    rw [hp]
    rfl

theorem invalid_bind_url_fails_construction_witness :
    hasColonDigit ("localhost" : String).data = false ∧
    (NewPrometheusMetricsWithParams [] [] "localhost").isErr = true ∧
    NewPrometheusMetricsWithParams [] [] "nocolon" =
      .err "Invalid bindURL nocolon. Must be in format '0.0.0.0:8880'" :=
  ⟨by decide,
   invalid_bind_url_fails_construction.2 "localhost" [] [] (by decide),
   invalid_bind_url_fails_construction.1 "nocolon"
     "Invalid bindURL nocolon. Must be in format '0.0.0.0:8880'" [] [] (by rfl)⟩

/-! ### C10: host:port parsing with a trailing path suffix -/

theorem hasColonDigit_append_of_no_colon {l s : List Char}
    (hl : ∀ c ∈ l, c ≠ ':') (hs : hasColonDigit s = false) :
    hasColonDigit (l ++ s) = false := by
  induction l with
  | nil => simpa
  | cons c l' ih =>
    have hc : c ≠ ':' := hl c (by simp)
    have ih' := ih (fun x hx => hl x (by simp [hx]))
    cases hls : l' ++ s with
    | nil =>
      rw [List.cons_append, hls]
      rfl
    | cons d tail =>
      rw [List.cons_append, hls]
      simp only [hasColonDigit, Bool.or_eq_false_iff]
      constructor
      · simp [hc]
      · rw [← hls]
        exact ih'

theorem lastColonSplit_append (host digits suffix : List Char)
    (hhost : ∀ c ∈ host, c ≠ '\n')
    (d0 : Char) (dtl : List Char) (hdigits : digits = d0 :: dtl)
    (hd0 : d0.isDigit = true)
    (hrest : hasColonDigit (digits ++ suffix) = false) :
    lastColonSplit (host ++ (':' :: (digits ++ suffix))) =
      some (host, digits ++ suffix) := by
  induction host with
  | nil =>
    rw [List.nil_append, lastColonSplit_cons, lastColonSplit_eq_none hrest, hdigits,
      List.cons_append]
    have h1 : ¬((':' : Char) = '\n') := by decide
    simp [h1, hd0]
  | cons c host' ih =>
    have hc : c ≠ '\n' := hhost c (by simp)
    have ih' := ih (fun x hx => hhost x (by simp [hx]))
    rw [List.cons_append, lastColonSplit_cons, if_neg hc, ih']

theorem span_digits (digits suffix : List Char)
    (hdig : ∀ c ∈ digits, c.isDigit = true)
    (hsuf : ∀ c ∈ suffix.take 1, c.isDigit = false) :
    (digits ++ suffix).takeWhile Char.isDigit = digits ∧
    (digits ++ suffix).dropWhile Char.isDigit = suffix := by
  induction digits with
  | nil =>
    rw [List.nil_append]
    cases suffix with
    | nil => simp
    | cons d s' =>
      have hd : d.isDigit = false := hsuf d (by simp)
      simp [List.takeWhile_cons, List.dropWhile_cons, hd]
  | cons c l ih =>
    have hc : c.isDigit = true := hdig c (by simp)
    have ih' := ih (fun x hx => hdig x (by simp [hx]))
    simp [List.takeWhile_cons, List.dropWhile_cons, hc, ih'.1, ih'.2]

theorem matchAt_append (host digits suffix : List Char)
    (hhost0 : host ≠ []) (hhost : ∀ c ∈ host, c ≠ '\n')
    (d0 : Char) (dtl : List Char) (hdigits : digits = d0 :: dtl)
    (hd0 : d0.isDigit = true)
    (hdig : ∀ c ∈ digits, c.isDigit = true)
    (hsufcd : hasColonDigit suffix = false)
    (hsufhd : ∀ c ∈ suffix.take 1, c.isDigit = false) :
    matchAt (host ++ (':' :: (digits ++ suffix))) = some (host, digits, suffix) := by
  have hnc : ∀ c ∈ digits, c ≠ ':' := by
    intro c hc he
    have hcd := hdig c hc
    rw [he] at hcd
    exact absurd hcd (by decide)
  have hrest : hasColonDigit (digits ++ suffix) = false :=
    hasColonDigit_append_of_no_colon hnc hsufcd
  have hspan := span_digits digits suffix hdig hsufhd
  unfold matchAt
  simp only [lastColonSplit_append host digits suffix hhost d0 dtl hdigits hd0 hrest]
  rw [if_neg hhost0, hspan.1, hspan.2]

theorem findMatch_append (host digits suffix : List Char)
    (hhost0 : host ≠ []) (hhost : ∀ c ∈ host, c ≠ '\n')
    (d0 : Char) (dtl : List Char) (hdigits : digits = d0 :: dtl)
    (hd0 : d0.isDigit = true)
    (hdig : ∀ c ∈ digits, c.isDigit = true)
    (hsufcd : hasColonDigit suffix = false)
    (hsufhd : ∀ c ∈ suffix.take 1, c.isDigit = false) :
    findMatch (host ++ (':' :: (digits ++ suffix))) = some (host, digits, suffix) := by
  cases host with
  | nil => exact absurd rfl hhost0
  | cons c host' =>
    rw [List.cons_append, findMatch_cons, ← List.cons_append,
      matchAt_append (c :: host') digits suffix hhost0 hhost d0 dtl hdigits hd0 hdig
        hsufcd hsufhd]

theorem parseBindURL_append (url : String) (host digits suffix : List Char)
    (hurl : url.data = host ++ (':' :: (digits ++ suffix)))
    (hhost0 : host ≠ []) (hhost : ∀ c ∈ host, c ≠ '\n')
    (d0 : Char) (dtl : List Char) (hdigits : digits = d0 :: dtl)
    (hd0 : d0.isDigit = true)
    (hdig : ∀ c ∈ digits, c.isDigit = true)
    (hsufcd : hasColonDigit suffix = false)
    (hsufhd : ∀ c ∈ suffix.take 1, c.isDigit = false)
    (hrange : digitsToNat digits ≤ 9223372036854775807) :
    parseBindURL url = .ok (String.mk host, digitsToNat digits) := by
  unfold parseBindURL findAll3
  rw [hurl]
  simp only [findMatch_append host digits suffix hhost0 hhost d0 dtl hdigits hd0 hdig
    hsufcd hsufhd, findMatch_eq_none hsufcd]
  unfold atoiDigits
  rw [if_pos hrange]

/-- C10: for every bindURL of the form `host ++ ":" ++ digits ++ suffix` —
host nonempty and newline-free, digits a nonempty numeral fitting in a 64-bit
int, and a trailing suffix containing no further colon-then-digit sequence and
not starting with a digit — construction succeeds using only the host and the
port (the path suffix is discarded, and a leading-zero port is renormalized by
`%d`), and the metrics handler is installed as the server's sole handler, so
the same exposition body is served for every request path. -/
theorem path_suffix_discarded_and_sole_handler
    (url : String) (host digits suffix : List Char)
    (hurl : url.data = host ++ (':' :: (digits ++ suffix)))
    (hhost0 : host ≠ []) (hhost : ∀ c ∈ host, c ≠ '\n')
    (d0 : Char) (dtl : List Char) (hdigits : digits = d0 :: dtl)
    (hdig : ∀ c ∈ digits, c.isDigit = true)
    (hsufcd : hasColonDigit suffix = false)
    (hsufhd : ∀ c ∈ suffix.take 1, c.isDigit = false)
    (hrange : digitsToNat digits ≤ 9223372036854775807)
    (ports : List String) :
    (NewPrometheusMetricsWithParams [] ports url).isOk = true ∧
    (thePM (NewPrometheusMetricsWithParams [] ports url)).srvAddr =
      String.mk host ++ ":" ++ toString (digitsToNat digits) ∧
    (∀ p q : String,
      handleScrape (thePM (NewPrometheusMetricsWithParams [] ports url)) p =
        handleScrape (thePM (NewPrometheusMetricsWithParams [] ports url)) q) := by
  have hd0 : d0.isDigit = true := hdig d0 (by simp [hdigits])
  have hp := parseBindURL_append url host digits suffix hurl hhost0 hhost d0 dtl hdigits
    hd0 hdig hsufcd hsufhd hrange
  have hnew : NewPrometheusMetricsWithParams [] ports url = .ok
      { requestSecondsHistogram := ⟨promBuckets, []⟩
        requestBytesInCounter := ⟨[]⟩
        requestBytesOutCounter := ⟨[]⟩
        requestFailCounter := ⟨[]⟩
        srvAddr := String.mk host ++ ":" ++ toString (digitsToNat digits)
        srvClosed := false
        registry := ["request_seconds", "request_bytes_in", "request_bytes_out",
          "request_fail_count"] }
      ["request_bytes_in", "request_bytes_out", "request_fail_count"] := by
    rw [newPM_eq_of_parse_ok hp]
    simp
  rw [hnew]
  exact ⟨rfl, rfl, fun p q => rfl⟩

theorem path_suffix_discarded_and_sole_handler_witness :
    (NewPrometheusMetricsWithParams [] [] "0.0.0.0:8880/metrics").isOk = true ∧
    (thePM (NewPrometheusMetricsWithParams [] [] "0.0.0.0:8880/metrics")).srvAddr =
      String.mk ("0.0.0.0" : String).data ++ ":" ++
        toString (digitsToNat ("8880" : String).data) ∧
    (∀ p q : String,
      handleScrape (thePM (NewPrometheusMetricsWithParams [] []
        "0.0.0.0:8880/metrics")) p =
        handleScrape (thePM (NewPrometheusMetricsWithParams [] []
          "0.0.0.0:8880/metrics")) q) :=
  path_suffix_discarded_and_sole_handler "0.0.0.0:8880/metrics"
    ("0.0.0.0" : String).data ("8880" : String).data ("/metrics" : String).data
    (by decide) (by decide) (by decide) '8' ("880" : String).data (by decide)
    (by decide) (by decide) (by decide) (by decide) []

/-- Sanity checks of the regexp model against the leftmost-first greedy
behaviour of Go's `(.+):([0-9]+)` on concrete inputs: `(.+)` greedily extends
to the last usable colon, the digit run is maximal, a path suffix stays
outside the match, and a newline splits the input into two matches (which the
constructor then rejects). -/
theorem parseBindURL_sanity :
    parseBindURL "0.0.0.0:8880" = .ok ("0.0.0.0", 8880) ∧
    parseBindURL "0.0.0.0:8880/metrics" = .ok ("0.0.0.0", 8880) ∧
    parseBindURL "host:123:456" = .ok ("host:123", 456) ∧
    (parseBindURL "nocolon").isOk = false ∧
    (parseBindURL "a:1\nb:2").isOk = false ∧
    (NewPrometheusMetrics [] []).isOk = true :=
  ⟨by rfl, by rfl, by rfl, by decide, by decide, by decide⟩
